import Mathlib

/-!
Verification development for the `spotify_stream` repository
(`playlist_service.py`, `youtube_service.py`, `main.py`).

The Python code is shallowly embedded: dictionaries become structures, the
in-memory playlist dictionary (`self.playlists`, a `dict` keyed by playlist
id with insertion order) becomes a list of playlists with lookup by id,
`datetime.now()` timestamps become a `Nat` parameter supplied to each
mutating operation, and unbounded Python `int` becomes `Int` (or `Nat`
where the source value is a count).  File persistence (`save_playlists`)
is out of scope: it never changes the in-memory state.
-/

namespace SpotifyStream

/-- A song as stored inside a playlist (`song_data` built in
`PlaylistService.add_song_to_playlist`, lines 92-100): the six fields copied
from the request plus the `added_at` stamp. -/
structure Song where
  id : String
  title : String
  channel : String
  duration : String
  thumbnail : Option String
  url : String
  added_at : Nat
deriving DecidableEq, Inhabited

/-- The song payload accepted by `add_song_to_playlist` (the
`AddSongRequest` model in `main.py`, lines 55-61). -/
structure SongInput where
  id : String
  title : String
  channel : String
  duration : String
  thumbnail : Option String
  url : String
deriving DecidableEq, Inhabited

/-- A playlist record as built by `PlaylistService.create_playlist`
(lines 34-42).  Timestamps are modelled as `Nat` (ISO `datetime` strings
compare chronologically, which is all the code uses them for);
`total_duration` is a Python `int`, hence `Int`. -/
structure Playlist where
  id : String
  name : String
  description : String
  created_at : Nat
  updated_at : Nat
  songs : List Song
  total_duration : Int
deriving DecidableEq, Inhabited

/-- The in-memory store `self.playlists`: a `dict` keyed by playlist id in
insertion order, modelled as the list of its values. -/
abbrev Store := List Playlist

/-- Model of CPython `int(s)` on a string (given as its character list):
surrounding whitespace is stripped, an optional single `+`/`-` sign is
allowed, and the remainder must be one or more ASCII digits.
(CPython additionally accepts underscore digit separators and non-ASCII
decimal digits; those are not modelled.) -/
def pyInt (cs : List Char) : Option Int :=
  let t := ((cs.dropWhile Char.isWhitespace).reverse.dropWhile Char.isWhitespace).reverse
  let sd : Int × List Char :=
    match t with
    | '-' :: rest => (-1, rest)
    | '+' :: rest => (1, rest)
    | _ => (1, t)
  if sd.2 ≠ [] ∧ sd.2.all Char.isDigit then
    some (sd.1 * (sd.2.foldl (fun n c => 10 * n + (c.toNat - 48)) (0 : Nat) : Int))
  else none

/-- Model of Python `s.split(":")` on the character list of `s`. -/
def splitColon : List Char → List (List Char)
  | [] => [[]]
  | c :: rest =>
    match splitColon rest with
    | [] => [[]]
    | g :: gs => if c = ':' then [] :: g :: gs else (c :: g) :: gs

/-- The duration-parse policy shared by `add_song_to_playlist`
(lines 106-113) and `remove_song_from_playlist` (lines 132-139):
`duration.split(":")` must have exactly two components and both must be
accepted by `int`; the result is `minutes * 60 + seconds`.  Any other
shape — or an `int` failure, which the code catches with a bare
`except` — yields `none` (the aggregate is then left untouched). -/
def parseDuration (s : String) : Option Int :=
  match splitColon s.toList with
  | [m, sec] =>
    match pyInt m, pyInt sec with
    | some mv, some sv => some (mv * 60 + sv)
    | _, _ => none
  | _ => none

/-- `PlaylistService.create_playlist` (lines 31-46), playlist value only:
fresh id, both timestamps now, no songs, zero duration. -/
def newPlaylist (pid name description : String) (now : Nat) : Playlist :=
  { id := pid, name := name, description := description,
    created_at := now, updated_at := now, songs := [], total_duration := 0 }

/-- `PlaylistService.add_song_to_playlist` (lines 84-116), acting on the
playlist found in the store.  A song whose id is already present makes the
whole call a no-op that returns the playlist unchanged (lines 87-89).
Otherwise the song is appended with an `added_at` stamp, `updated_at` is
bumped, and—only when the duration string parses—`total_duration` is
increased by the parsed value. -/
def addSongPl (p : Playlist) (song : SongInput) (now : Nat) : Playlist :=
  if p.songs.any (fun s => s.id == song.id) then p
  else
    let sd : Song :=
      { id := song.id, title := song.title, channel := song.channel,
        duration := song.duration, thumbnail := song.thumbnail,
        url := song.url, added_at := now }
    { p with
      songs := p.songs ++ [sd],
      updated_at := now,
      total_duration :=
        match parseDuration song.duration with
        | some d => p.total_duration + d
        | none => p.total_duration }

/-- The `for i, song in enumerate(...)`/`pop(i)` loop of
`remove_song_from_playlist` (lines 126-128): remove the first song whose id
matches, returning it together with the remaining list. -/
def removeFirst (sid : String) : List Song → Option (Song × List Song)
  | [] => none
  | s :: rest =>
    if s.id == sid then some (s, rest)
    else
      match removeFirst sid rest with
      | none => none
      | some (r, l) => some (r, s :: l)

/-- `PlaylistService.remove_song_from_playlist` (lines 123-144), acting on
the playlist found in the store.  If no song matches, the playlist is
returned unchanged (line 144).  Otherwise the first match is removed,
`updated_at` is bumped, and—only when the removed song's duration string
parses—`total_duration` becomes `max 0 (total_duration - parsed)`
(line 137). -/
def removeSongPl (p : Playlist) (sid : String) (now : Nat) : Playlist :=
  match removeFirst sid p.songs with
  | none => p
  | some (removed, rest) =>
    { p with
      songs := rest,
      updated_at := now,
      total_duration :=
        match parseDuration removed.duration with
        | some d => max 0 (p.total_duration - d)
        | none => p.total_duration }

/-- Python list indexing `l[i]` for `int` indices: `0 ≤ i < len` reads from
the front, `-len ≤ i < 0` reads from the end (`l[-1]` is the last element),
anything else raises `IndexError` (modelled as `none`). -/
def pyIndex (l : List Song) (i : Int) : Option Song :=
  if 0 ≤ i then l.get? i.toNat
  else if 0 ≤ (l.length : Int) + i then l.get? ((l.length : Int) + i).toNat
  else none

/-- The list comprehension `[songs[i] for i in song_indices]` of
`reorder_playlist` (line 159): `none` as soon as one index raises
`IndexError`. -/
def selectAll (songs : List Song) : List Int → Option (List Song)
  | [] => some []
  | i :: rest =>
    match pyIndex songs i with
    | none => none
    | some s =>
      match selectAll songs rest with
      | none => none
      | some l => some (s :: l)

/-- `PlaylistService.reorder_playlist` (lines 151-166), acting on the
playlist found in the store: `none` when the index list's length differs
from the song count or some index raises `IndexError`; otherwise the songs
are reindexed and `updated_at` is bumped.  (The `IndexError` is raised by
the comprehension before any field is assigned, so failure mutates
nothing.)  Note the code checks nothing else: duplicate and negative
(Python wrap-around) indices are accepted. -/
def reorderPl (p : Playlist) (songIndices : List Int) (now : Nat) : Option Playlist :=
  if songIndices.length ≠ p.songs.length then none
  else
    match selectAll p.songs songIndices with
    | none => none
    | some reordered => some { p with songs := reordered, updated_at := now }

/-- `PlaylistService.update_playlist` (lines 61-66), acting on the playlist
found in the store: each of `name`/`description` is assigned only when
supplied (`is not None`), and `updated_at` is always bumped. -/
def updatePl (p : Playlist) (name description : Option String) (now : Nat) : Playlist :=
  { p with
    name := name.getD p.name,
    description := description.getD p.description,
    updated_at := now }

/-- `self.playlists.get(playlist_id)` / `playlist_id not in self.playlists`:
look the playlist up by id. -/
def findPl (st : Store) (pid : String) : Option Playlist :=
  st.find? (fun p => p.id == pid)

/-- Writing the mutated playlist back into the dictionary slot it was read
from: the first (in dict semantics, only) entry with this id is replaced in
place, every other entry is untouched. -/
def setPl : Store → String → Playlist → Store
  | [], _, _ => []
  | q :: rest, pid, p => if q.id == pid then p :: rest else q :: setPl rest pid p

/-- `PlaylistService.create_playlist` (lines 31-46) at store level:
`self.playlists[playlist_id] = playlist` on a fresh `uuid4` key appends a
new entry.  Returns the created playlist and the new store. -/
def create_playlist (st : Store) (name description : String) (pid : String)
    (now : Nat) : Playlist × Store :=
  (newPlaylist pid name description now, st ++ [newPlaylist pid name description now])

/-- `PlaylistService.update_playlist` (lines 56-69) at store level: `none`
(Python `None`) when the id is absent, otherwise the updated playlist and
the store with that entry replaced. -/
def update_playlist (st : Store) (pid : String) (name description : Option String)
    (now : Nat) : Option Playlist × Store :=
  match findPl st pid with
  | none => (none, st)
  | some p =>
    (some (updatePl p name description now), setPl st pid (updatePl p name description now))

/-- `PlaylistService.add_song_to_playlist` (lines 79-116) at store level. -/
def add_song_to_playlist (st : Store) (pid : String) (song : SongInput)
    (now : Nat) : Option Playlist × Store :=
  match findPl st pid with
  | none => (none, st)
  | some p => (some (addSongPl p song now), setPl st pid (addSongPl p song now))

/-- `PlaylistService.remove_song_from_playlist` (lines 118-144) at store
level. -/
def remove_song_from_playlist (st : Store) (pid : String) (sid : String)
    (now : Nat) : Option Playlist × Store :=
  match findPl st pid with
  | none => (none, st)
  | some p => (some (removeSongPl p sid now), setPl st pid (removeSongPl p sid now))

/-- `PlaylistService.reorder_playlist` (lines 146-166) at store level: the
failure paths (`return None`) leave the store exactly as it was. -/
def reorder_playlist (st : Store) (pid : String) (songIndices : List Int)
    (now : Nat) : Option Playlist × Store :=
  match findPl st pid with
  | none => (none, st)
  | some p =>
    match reorderPl p songIndices now with
    | none => (none, st)
    | some p2 => (some p2, setPl st pid p2)

/-- `PlaylistService.get_recent_playlists` (lines 200-205): stable sort of
all playlists by `updated_at` descending (`sort(key=..., reverse=True)`),
then the first `limit` entries (`[:limit]`; the limit is modelled as a
count, i.e. nonnegative). -/
def get_recent_playlists (st : Store) (limit : Nat) : List Playlist :=
  (st.mergeSort (fun a b => decide (b.updated_at ≤ a.updated_at))).take limit

/-- One mutation applied to a single playlist, for stating invariants over
operation sequences. -/
inductive PlOp where
  | addSong (song : SongInput) (now : Nat)
  | removeSong (sid : String) (now : Nat)
deriving DecidableEq

/-- Apply one `PlOp` to a playlist. -/
def applyOp (p : Playlist) : PlOp → Playlist
  | .addSong song now => addSongPl p song now
  | .removeSong sid now => removeSongPl p sid now

/-- Apply a sequence of mutations left to right. -/
def applyOps (p : Playlist) (ops : List PlOp) : Playlist :=
  ops.foldl applyOp p

/-- The derived quantity the spec's invariant speaks about: the sum of the
parsable durations of the songs currently in the playlist (unparseable
durations contribute nothing). -/
def durSum (songs : List Song) : Int :=
  (songs.filterMap (fun s => parseDuration s.duration)).sum

/-- An operation is benign when, if it adds a song whose duration parses,
the parsed value is nonnegative (removals are always benign). -/
def opOk : PlOp → Prop
  | .addSong song _ => 0 ≤ (parseDuration song.duration).getD 0
  | .removeSong _ _ => True

/-! ### `youtube_service.py` models -/

/-- One entry of `info['formats']` as consulted by
`YouTubeService.get_audio_stream_url` (lines 127-140): only the five keys
the code reads are modelled; `none` stands for an absent (or `null`) key.
Bitrates (`abr`, `tbr`) are modelled as integers. -/
structure MediaFormat where
  acodec : Option String
  vcodec : Option String
  abr : Option Int
  tbr : Option Int
  url : Option String
deriving DecidableEq, Inhabited

/-- The extractor response consulted by `get_audio_stream_url`
(lines 117-140): `title`, `duration`, the optional direct `url` key, and
the optional `formats` list. -/
structure MediaInfo where
  title : Option String
  duration : Option Int
  url : Option String
  formats : Option (List MediaFormat)
deriving DecidableEq, Inhabited

/-- The dictionary returned by `get_audio_stream_url` (lines 145-150). -/
structure StreamResult where
  title : String
  duration : Int
  audio_url : String
  video_id : String
deriving DecidableEq, Inhabited

/-- The sort key `lambda x: x.get('abr', 0) or x.get('tbr', 0) or 0`
(line 133), with Python `or` falsiness: a missing, `null` or zero `abr`
falls back to `tbr`, and likewise to `0`. -/
def fmtKey (f : MediaFormat) : Int :=
  if f.abr.getD 0 ≠ 0 then f.abr.getD 0 else f.tbr.getD 0

/-- The audio-only filter of line 127-128:
`f.get('acodec') != 'none' and f.get('vcodec') == 'none'` (note an absent
`acodec` passes the first test, since `None != 'none'`). -/
def isAudioOnly (f : MediaFormat) : Bool :=
  f.acodec != some "none" && f.vcodec == some "none"

/-- Python `max(l, key=k)` for nonempty `l`: the first element attaining
the maximal key (later elements replace the champion only when strictly
greater). -/
def maxByFirst (k : MediaFormat → Int) : List MediaFormat → Option MediaFormat
  | [] => none
  | x :: xs => some (xs.foldl (fun best y => if k best < k y then y else best) x)

/-- Python truthiness of an optional string: `None` and `""` are falsy. -/
def strTruthy : Option String → Bool
  | none => false
  | some s => s ≠ ""

/-- The `audio_url` variable of `get_audio_stream_url` (lines 118-140):
(1) the direct `url` key when present; else (2) when `formats` is present
and has audio-only entries, the url of the best one by `fmtKey` (even when
that url is absent — the code does not fall through to step 3); else
(3) the url of the first format having an audio codec and a truthy url. -/
def computeAudioUrl (info : MediaInfo) : Option String :=
  match info.url with
  | some u => some u
  | none =>
    match info.formats with
    | none => none
    | some fmts =>
      match maxByFirst fmtKey (fmts.filter isAudioOnly) with
      | some best => best.url
      | none =>
        match fmts.find? (fun f => f.acodec != some "none" && strTruthy f.url) with
        | some f => f.url
        | none => none

/-- `YouTubeService.get_audio_stream_url` (lines 94-153) as a function of
the extractor response: when the computed `audio_url` is falsy the code
raises "No audio stream found", which the outer handler re-raises with the
"Error getting audio stream" prefix; otherwise the result dictionary is
returned. -/
def get_audio_stream_url (videoId : String) (info : MediaInfo) :
    Except String StreamResult :=
  match computeAudioUrl info with
  | some u =>
    if u = "" then Except.error "Error getting audio stream: No audio stream found"
    else
      Except.ok
        { title := info.title.getD "Unknown",
          duration := info.duration.getD 0,
          audio_url := u,
          video_id := videoId }
  | none => Except.error "Error getting audio stream: No audio stream found"

/-- Round-half-even of the fraction `num / den` to the nearest integer,
the rounding CPython's `format(x, '.1f')` applies (on the exact value; the
code formats the binary double `view_count/1000000`, whose representation
error can in rare cases shift a half-way value — digit values near exact
halves may differ, the shape of the output never does). -/
def roundHalfEven (num den : Nat) : Nat :=
  if 2 * (num % den) > den then num / den + 1
  else if 2 * (num % den) < den then num / den
  else if num / den % 2 = 0 then num / den else num / den + 1

/-- `f"{v/unit:.1f}"` for a nonnegative count `v`: one decimal digit. -/
def oneDecimal (v unit : Nat) : String :=
  toString (roundHalfEven (10 * v) unit / 10) ++ "." ++
    toString (roundHalfEven (10 * v) unit % 10)

/-- The view-count formatting of `YouTubeService.search_videos`
(lines 56-65).  `none` models an absent or non-numeric `view_count`; note
the guard `if view_count and isinstance(...)` is falsy for a count of `0`,
which therefore also yields "N/A". -/
def formatViews : Option Int → String
  | none => "N/A"
  | some v =>
    if v = 0 then "N/A"
    else if 1000000 ≤ v then oneDecimal v.toNat 1000000 ++ "M views"
    else if 1000 ≤ v then oneDecimal v.toNat 1000 ++ "K views"
    else toString v ++ " views"

/-! ### Concrete fixtures used by examples, witnesses and counterexamples -/

/-- A song request whose duration string `"0:-5"` is accepted by the parse
policy (Python `int("-5")` is `-5`) with value `-5` seconds. -/
def songNeg : SongInput :=
  { id := "a", title := "A", channel := "ch", duration := "0:-5",
    thumbnail := none, url := "ua" }

/-- A song request with duration `"1:00"` (60 seconds). -/
def songMin : SongInput :=
  { id := "b", title := "B", channel := "ch", duration := "1:00",
    thumbnail := none, url := "ub" }

/-- A stored song with id `"x"`. -/
def sX : Song :=
  { id := "x", title := "X", channel := "ch", duration := "1:00",
    thumbnail := none, url := "ux", added_at := 0 }

/-- A stored song with id `"y"`. -/
def sY : Song :=
  { id := "y", title := "Y", channel := "ch", duration := "2:00",
    thumbnail := none, url := "uy", added_at := 0 }

/-- A two-song playlist. -/
def plEx : Playlist :=
  { id := "p1", name := "mix", description := "", created_at := 0,
    updated_at := 0, songs := [sX, sY], total_duration := 180 }

/-- A store holding just `plEx`. -/
def stEx : Store := [plEx]

/-- Audio-only format, 128 kbps average bitrate. -/
def fm128 : MediaFormat :=
  { acodec := some "opus", vcodec := some "none", abr := some 128,
    tbr := none, url := some "u128" }

/-- Audio-only format, 160 kbps average bitrate. -/
def fm160 : MediaFormat :=
  { acodec := some "opus", vcodec := some "none", abr := some 160,
    tbr := none, url := some "u160" }

/-- Muxed audio+video format. -/
def fmAV : MediaFormat :=
  { acodec := some "aac", vcodec := some "h264", abr := none,
    tbr := none, url := some "uv" }

/-- The spec's format-selection example response: no direct url, three
formats. -/
def exInfo : MediaInfo :=
  { title := none, duration := none, url := none,
    formats := some [fm128, fm160, fmAV] }

/-- A response whose direct `url` key is set. -/
def directInfo : MediaInfo :=
  { title := some "t", duration := some 9, url := some "udirect",
    formats := some [fm128] }

/-- Playlist last updated at time 1. -/
def pl1 : Playlist := { newPlaylist "r1" "n1" "" 0 with updated_at := 1 }

/-- Playlist last updated at time 2. -/
def pl2 : Playlist := { newPlaylist "r2" "n2" "" 0 with updated_at := 2 }

/-- Playlist last updated at time 3. -/
def pl3 : Playlist := { newPlaylist "r3" "n3" "" 0 with updated_at := 3 }

/-- A song request whose id `"x"` duplicates the id of `sX` in `plEx`. -/
def songDupX : SongInput :=
  { id := "x", title := "X again", channel := "ch2", duration := "9:59",
    thumbnail := none, url := "ux2" }

/-- The playlist `reorder` actually produces from `plEx` and the
duplicate-index list `[0, 0]`: the first song twice. -/
def plDup : Playlist := { plEx with songs := [sX, sX], updated_at := 7 }

/-- The stored form of `songMin`, stamped at time 1. -/
def sB60 : Song :=
  { id := "b", title := "B", channel := "ch", duration := "1:00",
    thumbnail := none, url := "ub", added_at := 1 }

/-- A playlist whose cached aggregate (55) is smaller than its one member's
parsed duration (60), exercising the removal clamp. -/
def plClamp : Playlist :=
  { id := "p", name := "mix", description := "", created_at := 0,
    updated_at := 0, songs := [sB60], total_duration := 55 }

/-- The single-playlist invariant behind §8 of the spec: the cached
aggregate equals the sum of parsable member durations, and every member's
parsable duration is nonnegative (the strengthening needed for the
aggregate to survive the `max 0` clamp in removal). -/
def PlInv (p : Playlist) : Prop :=
  p.total_duration = durSum p.songs ∧
    ∀ s ∈ p.songs, 0 ≤ (parseDuration s.duration).getD 0

/-! ### Helper lemmas -/

theorem durSum_cons (s : Song) (l : List Song) :
    durSum (s :: l) = (parseDuration s.duration).getD 0 + durSum l := by
  cases hp : parseDuration s.duration <;>
    simp [durSum, List.filterMap_cons, hp]

theorem durSum_nonneg (l : List Song)
    (h : ∀ s ∈ l, 0 ≤ (parseDuration s.duration).getD 0) : 0 ≤ durSum l := by
  induction l with
  | nil => simp [durSum]
  | cons s rest ih =>
    rw [durSum_cons]
    have h1 := h s (by simp)
    have h2 := ih (fun t ht => h t (by simp [ht]))
    omega

theorem PlInv_new (pid name description : String) (now : Nat) :
    PlInv (newPlaylist pid name description now) := by
  constructor
  · simp [newPlaylist, durSum]
  · simp [newPlaylist]

theorem PlInv_add (p : Playlist) (song : SongInput) (now : Nat)
    (h : PlInv p) (hd : 0 ≤ (parseDuration song.duration).getD 0) :
    PlInv (addSongPl p song now) := by
  obtain ⟨hsum, hpos⟩ := h
  unfold addSongPl
  by_cases hdup : p.songs.any (fun s => s.id == song.id)
  · simpa [hdup] using ⟨hsum, hpos⟩
  · simp only [hdup, if_false]
    constructor
    · cases hp : parseDuration song.duration with
      | none =>
        simp only [hp]
        rw [hsum]
        simp [durSum, List.filterMap_append, List.filterMap_cons, hp]
      | some d =>
        simp only [hp]
        rw [hsum]
        simp [durSum, List.filterMap_append, List.filterMap_cons, hp]
    · intro s hs
      rcases List.mem_append.mp hs with hs1 | hs2
      · exact hpos s hs1
      · simp only [List.mem_singleton] at hs2
        subst hs2
        exact hd

theorem removeFirst_spec (sid : String) :
    ∀ (l : List Song) (r : Song) (rest : List Song),
      removeFirst sid l = some (r, rest) →
      durSum l = (parseDuration r.duration).getD 0 + durSum rest ∧
        ∀ s ∈ rest, s ∈ l := by
  intro l
  induction l with
  | nil => intro r rest h; simp [removeFirst] at h
  | cons s tail ih =>
    intro r rest h
    by_cases hid : s.id == sid
    · rw [removeFirst, if_pos hid] at h
      injection h with h2
      injection h2 with hr hrest
      subst hr; subst hrest
      exact ⟨durSum_cons s tail, fun t ht => by simp [ht]⟩
    · rw [removeFirst, if_neg hid] at h
      cases hrec : removeFirst sid tail with
      | none => rw [hrec] at h; exact absurd h (by simp)
      | some pr =>
        rw [hrec] at h
        injection h with h2
        injection h2 with hr hrest
        obtain ⟨hsum, hmem⟩ := ih pr.1 pr.2 (by rw [hrec])
        subst hr
        constructor
        · rw [← hrest, durSum_cons, durSum_cons, hsum]
          ring
        · intro t ht
          rw [← hrest] at ht
          rcases List.mem_cons.mp ht with h1 | h2
          · simp [h1]
          · simp [hmem t h2]

theorem PlInv_remove (p : Playlist) (sid : String) (now : Nat)
    (h : PlInv p) : PlInv (removeSongPl p sid now) := by
  obtain ⟨hsum, hpos⟩ := h
  unfold removeSongPl
  cases hrem : removeFirst sid p.songs with
  | none => exact ⟨hsum, hpos⟩
  | some pr =>
    obtain ⟨hs, hmem⟩ := removeFirst_spec sid p.songs pr.1 pr.2 (by rw [hrem])
    have hrest0 : 0 ≤ durSum pr.2 := durSum_nonneg _ (fun t ht => hpos t (hmem t ht))
    constructor
    · cases hp : parseDuration pr.1.duration with
      | none =>
        simp only [hp]
        rw [hsum, hs]
        simp [hp]
      | some d =>
        simp only [hp]
        rw [hsum, hs]
        simp only [hp, Option.getD_some]
        omega
    · intro t ht
      exact hpos t (hmem t ht)

theorem PlInv_applyOps (ops : List PlOp) :
    ∀ (p : Playlist), (∀ op ∈ ops, opOk op) → PlInv p → PlInv (applyOps p ops) := by
  induction ops with
  | nil => intro p _ h; exact h
  | cons op rest ih =>
    intro p hok h
    rw [applyOps, List.foldl_cons]
    refine ih (applyOp p op) (fun o ho => hok o (by simp [ho])) ?_
    cases op with
    | addSong song now =>
      have hd : opOk (PlOp.addSong song now) := hok _ (by simp)
      exact PlInv_add p song now h hd
    | removeSong sid now => exact PlInv_remove p sid now h

/-! ### Claim C1 -/

/-- Claim C1 (amended): for every playlist created empty and every finite
sequence of addSong/removeSong operations in which every added song's
duration string either fails to parse or parses to a nonnegative value,
the playlist's `total_duration` equals the sum of the parsable durations of
the songs currently present (this holds after each operation, since every
prefix of such a sequence is itself such a sequence).  The nonnegativity
restriction is forced by `c1_duration_invariant_cex`. -/
theorem c1_duration_invariant (pid name description : String) (now : Nat)
    (ops : List PlOp) (hok : ∀ op ∈ ops, opOk op) :
    (applyOps (newPlaylist pid name description now) ops).total_duration =
      durSum (applyOps (newPlaylist pid name description now) ops).songs :=
  (PlInv_applyOps ops (newPlaylist pid name description now) hok
    (PlInv_new pid name description now)).1

/-- Witness for C1: the invariant at a concrete two-operation run. -/
theorem c1_duration_invariant_witness :
    (applyOps (newPlaylist "p" "mix" "" 0)
        [PlOp.addSong songMin 1, PlOp.removeSong "b" 2]).total_duration =
      durSum (applyOps (newPlaylist "p" "mix" "" 0)
        [PlOp.addSong songMin 1, PlOp.removeSong "b" 2]).songs := by
  refine c1_duration_invariant "p" "mix" "" 0 _ ?_
  intro op hop
  rcases List.mem_cons.mp hop with rfl | hop2
  · simp only [opOk]
    decide
  · rcases List.mem_singleton.mp hop2 with rfl
    simp only [opOk]

/-- Counterexample to C1 as stated: starting from an empty playlist, add a
song with duration `"0:-5"` (which the parse policy accepts as -5), add a
song with duration `"1:00"`, then remove the latter.  The removal's
`max(0, ...)` clamp fires (55 - 60 < 0), so `total_duration` ends at 0
while the sum of parsed durations of the present songs is -5. -/
theorem c1_duration_invariant_cex :
    (applyOps (newPlaylist "p" "mix" "" 0)
        [PlOp.addSong songNeg 1, PlOp.addSong songMin 2,
         PlOp.removeSong "b" 3]).total_duration = 0 ∧
    durSum (applyOps (newPlaylist "p" "mix" "" 0)
        [PlOp.addSong songNeg 1, PlOp.addSong songMin 2,
         PlOp.removeSong "b" 3]).songs = -5 ∧
    (applyOps (newPlaylist "p" "mix" "" 0)
        [PlOp.addSong songNeg 1, PlOp.addSong songMin 2,
         PlOp.removeSong "b" 3]).total_duration ≠
      durSum (applyOps (newPlaylist "p" "mix" "" 0)
        [PlOp.addSong songNeg 1, PlOp.addSong songMin 2,
         PlOp.removeSong "b" 3]).songs := by
  refine ⟨by decide, by decide, by decide⟩

/-! ### Claim C4 -/

/-- Claim C4 (amended): for every playlist created empty and every sequence
of addSong/removeSong operations whose added durations parse (if at all) to
nonnegative values, `total_duration` stays ≥ 0 at all times; and removeSong
of a song whose duration parses to `d` indeed clamps the aggregate at zero
(`max 0 (total - d)`) instead of letting it go negative.  The restriction
on added durations is forced by `c4_nonneg_cex`: addSong applies no clamp,
so a negative parsed duration drives the aggregate negative. -/
theorem c4_nonneg :
    (∀ (pid name description : String) (now : Nat) (ops : List PlOp),
      (∀ op ∈ ops, opOk op) →
      0 ≤ (applyOps (newPlaylist pid name description now) ops).total_duration) ∧
    (∀ (p : Playlist) (sid : String) (now : Nat) (r : Song) (rest : List Song)
        (d : Int), removeFirst sid p.songs = some (r, rest) →
      parseDuration r.duration = some d →
      (removeSongPl p sid now).total_duration = max 0 (p.total_duration - d)) := by
  constructor
  · intro pid name description now ops hok
    have h := PlInv_applyOps ops (newPlaylist pid name description now) hok
      (PlInv_new pid name description now)
    rw [h.1]
    exact durSum_nonneg _ h.2
  · intro p sid now r rest d hrem hp
    unfold removeSongPl
    rw [hrem]
    simp [hp]

/-- Witness for C4: nonnegativity at a concrete run, and the clamp firing
concretely (removing a 60-second song from a playlist whose aggregate is
only 55). -/
theorem c4_nonneg_witness :
    0 ≤ (applyOps (newPlaylist "p" "mix" "" 0)
        [PlOp.addSong songMin 1, PlOp.removeSong "b" 2]).total_duration ∧
    (removeSongPl plClamp "b" 2).total_duration = max 0 (55 - 60) := by
  constructor
  · refine c4_nonneg.1 "p" "mix" "" 0 _ ?_
    intro op hop
    rcases List.mem_cons.mp hop with rfl | hop2
    · simp only [opOk]
      decide
    · rcases List.mem_singleton.mp hop2 with rfl
      simp only [opOk]
  · exact c4_nonneg.2 plClamp "b" 2 sB60 [] 60 (by decide) (by decide)

/-- Counterexample to C4 as stated: adding a single song whose duration
string `"0:-5"` parses to -5 drives `total_duration` of a fresh playlist to
-5 < 0 (the add path has no clamp). -/
theorem c4_nonneg_cex :
    (applyOps (newPlaylist "p" "mix" "" 0)
        [PlOp.addSong songNeg 1]).total_duration = -5 ∧
    ¬ 0 ≤ (applyOps (newPlaylist "p" "mix" "" 0)
        [PlOp.addSong songNeg 1]).total_duration := by
  refine ⟨by decide, by decide⟩

/-! ### Store helper lemmas -/

theorem setPl_self : ∀ (st : Store) (pid : String) (p : Playlist),
    findPl st pid = some p → setPl st pid p = st := by
  intro st
  induction st with
  | nil => intro pid p h; simp [findPl] at h
  | cons q rest ih =>
    intro pid p h
    cases hq : q.id == pid with
    | true =>
      simp only [findPl, List.find?_cons, hq] at h
      injection h with h
      rw [setPl, if_pos hq, h]
    | false =>
      simp only [findPl, List.find?_cons, hq] at h
      rw [setPl, if_neg (by simp [hq]), ih pid p h]

/-! ### Claim C3 -/

/-- Claim C3: adding a song whose id already occurs in the playlist is a
complete no-op — the service returns the stored playlist with songs,
`total_duration` and `updated_at` all unchanged, and the store itself is
untouched (no error is signalled: the result is `some`, not `none`).
Moreover song ids stay unique within a playlist under addSong. -/
theorem c3_duplicate_add_noop :
    (∀ (st : Store) (pid : String) (p : Playlist) (song : SongInput) (now : Nat),
      findPl st pid = some p → (∃ s ∈ p.songs, s.id = song.id) →
      add_song_to_playlist st pid song now = (some p, st)) ∧
    (∀ (p : Playlist) (song : SongInput) (now : Nat),
      (p.songs.map Song.id).Nodup → ((addSongPl p song now).songs.map Song.id).Nodup) := by
  constructor
  · intro st pid p song now hfind hdup
    obtain ⟨s, hs, hid⟩ := hdup
    have hany : p.songs.any (fun t => t.id == song.id) = true := by
      simp only [List.any_eq_true, beq_iff_eq]
      exact ⟨s, hs, hid⟩
    have hnoop : addSongPl p song now = p := by
      unfold addSongPl
      rw [if_pos hany]
    have hred : add_song_to_playlist st pid song now =
        (some (addSongPl p song now), setPl st pid (addSongPl p song now)) := by
      rw [add_song_to_playlist, hfind]
    rw [hred, hnoop, setPl_self st pid p hfind]
  · intro p song now hnd
    unfold addSongPl
    cases hany : p.songs.any (fun t => t.id == song.id) with
    | true => simpa using hnd
    | false =>
      have hnotmem : song.id ∉ p.songs.map Song.id := by
        intro hmem
        obtain ⟨s, hs, hid⟩ := List.mem_map.mp hmem
        have hc : p.songs.any (fun t => t.id == song.id) = true := by
          simp only [List.any_eq_true, beq_iff_eq]
          exact ⟨s, hs, hid⟩
        rw [hany] at hc
        exact absurd hc (by simp)
      simp only [Bool.false_eq_true, if_false, List.map_append, List.map_cons,
        List.map_nil]
      refine List.Nodup.append hnd (List.nodup_singleton _) ?_
      intro a ha hb
      rcases List.mem_singleton.mp hb with rfl
      exact hnotmem ha

/-- Witness for C3: re-adding the song with id `"x"` to the playlist that
already holds it leaves playlist and store untouched. -/
theorem c3_duplicate_add_noop_witness :
    add_song_to_playlist stEx "p1" songDupX 9 = (some plEx, stEx) :=
  c3_duplicate_add_noop.1 stEx "p1" plEx songDupX 9 (by decide)
    ⟨sX, by decide, rfl⟩

/-! ### Claim C2 -/

theorem pyIndex_isSome_iff (l : List Song) (i : Int) :
    (pyIndex l i).isSome = true ↔
      (-(l.length : Int) ≤ i ∧ i < (l.length : Int)) := by
  unfold pyIndex
  by_cases h0 : 0 ≤ i
  · rw [if_pos h0, Option.isSome_iff_ne_none]
    simp only [ne_eq, List.get?_eq_none]
    omega
  · rw [if_neg h0]
    by_cases h1 : 0 ≤ (l.length : Int) + i
    · rw [if_pos h1, Option.isSome_iff_ne_none]
      simp only [ne_eq, List.get?_eq_none]
      omega
    · rw [if_neg h1]
      simp only [Option.isSome_none, Bool.false_eq_true, false_iff, not_and,
        not_lt]
      omega

theorem selectAll_eq_none (songs : List Song) :
    ∀ (idxs : List Int), (∃ i ∈ idxs, pyIndex songs i = none) →
      selectAll songs idxs = none := by
  intro idxs
  induction idxs with
  | nil => intro h; simp at h
  | cons i rest ih =>
    intro h
    rw [selectAll]
    obtain ⟨j, hj, hnone⟩ := h
    rcases List.mem_cons.mp hj with rfl | hjr
    · rw [hnone]
    · cases hpi : pyIndex songs i with
      | none => rfl
      | some s => rw [ih ⟨j, hjr, hnone⟩]

theorem selectAll_eq_some (songs : List Song) :
    ∀ (idxs : List Int), (∀ i ∈ idxs, (pyIndex songs i).isSome = true) →
      selectAll songs idxs =
        some (idxs.map (fun i => (pyIndex songs i).getD default)) := by
  intro idxs
  induction idxs with
  | nil => intro _; rfl
  | cons i rest ih =>
    intro h
    obtain ⟨s, hs⟩ := Option.isSome_iff_exists.mp (h i (by simp))
    rw [selectAll, hs, ih (fun j hj => h j (by simp [hj])), List.map_cons, hs]
    simp

/-- Claim C2 (amended): for an existing playlist with `n` songs,
`reorder` fails (returns the not-found/invalid sentinel `none` and leaves
the store — hence the playlist's songs, `total_duration` and `updated_at` —
completely unchanged) when the index list's length differs from `n` or when
it contains an index outside `[-n, n)` (Python indexing, where negative
indices wrap from the end); when the length matches and every index is in
range, it succeeds and returns the playlist whose song sequence is the
reindexing `[songs[i] for i in indices]` with `updated_at` bumped — for an
index list that is a permutation of `[0, n)` this is exactly that
permutation applied.  Contrary to the claim as stated, duplicate indices
are NOT rejected (`c2_reorder_cex`): the code checks only length and
`IndexError`. -/
theorem c2_reorder (st : Store) (pid : String) (p : Playlist)
    (idxs : List Int) (now : Nat) (hfind : findPl st pid = some p) :
    (idxs.length ≠ p.songs.length →
      reorder_playlist st pid idxs now = (none, st)) ∧
    ((∃ i ∈ idxs, ¬(-(p.songs.length : Int) ≤ i ∧ i < (p.songs.length : Int))) →
      reorder_playlist st pid idxs now = (none, st)) ∧
    (idxs.length = p.songs.length →
      (∀ i ∈ idxs, -(p.songs.length : Int) ≤ i ∧ i < (p.songs.length : Int)) →
      reorder_playlist st pid idxs now =
        (some { p with
                songs := idxs.map (fun i => (pyIndex p.songs i).getD default),
                updated_at := now },
         setPl st pid
           { p with
             songs := idxs.map (fun i => (pyIndex p.songs i).getD default),
             updated_at := now })) := by
  have hred : ∀ now2, reorder_playlist st pid idxs now2 =
      (match reorderPl p idxs now2 with
       | none => (none, st)
       | some p2 => (some p2, setPl st pid p2)) := by
    intro now2
    rw [reorder_playlist, hfind]
  refine ⟨?_, ?_, ?_⟩
  · intro hlen
    rw [hred, reorderPl, if_pos hlen]
  · intro hbad
    obtain ⟨i, hi, hnv⟩ := hbad
    have hnone : pyIndex p.songs i = none := by
      cases hps : pyIndex p.songs i with
      | none => rfl
      | some s =>
        exact absurd ((pyIndex_isSome_iff p.songs i).mp (by rw [hps]; rfl)) hnv
    rw [hred, reorderPl]
    by_cases hlen : idxs.length ≠ p.songs.length
    · rw [if_pos hlen]
    · rw [if_neg hlen, selectAll_eq_none p.songs idxs ⟨i, hi, hnone⟩]
  · intro hlen hvalid
    rw [hred, reorderPl, if_neg (by omega),
      selectAll_eq_some p.songs idxs
        (fun i hi => (pyIndex_isSome_iff p.songs i).mpr (hvalid i hi))]

/-- Witness for C2: reversing the two songs of `plEx` via the permutation
`[1, 0]` succeeds and applies exactly that permutation. -/
theorem c2_reorder_witness :
    reorder_playlist stEx "p1" [1, 0] 7 =
      (some { plEx with
              songs := ([1, 0] : List Int).map
                (fun i => (pyIndex plEx.songs i).getD default),
              updated_at := 7 },
       setPl stEx "p1"
         { plEx with
           songs := ([1, 0] : List Int).map
             (fun i => (pyIndex plEx.songs i).getD default),
           updated_at := 7 }) :=
  (c2_reorder stEx "p1" plEx [1, 0] 7 (by decide)).2.2 (by decide) (by decide)

/-- Counterexample to C2 as stated: the duplicate-index list `[0, 0]` on a
two-song playlist is not a permutation, yet `reorder` does not signal
invalid — it succeeds, duplicates the first song and mutates the store. -/
theorem c2_reorder_cex :
    reorder_playlist stEx "p1" [0, 0] 7 = (some plDup, [plDup]) ∧
    plDup.songs = [sX, sX] ∧
    (reorder_playlist stEx "p1" [0, 0] 7).2 ≠ stEx ∧
    (reorder_playlist stEx "p1" [0, 0] 7).1 ≠ none := by
  refine ⟨by decide, by decide, by decide, by decide⟩

/-! ### Claim C9 -/

/-- Claim C9: updating an existing playlist applies exactly the supplied
fields of {name, description}: each omitted field keeps its value, `id`,
`created_at`, `songs` and `total_duration` are untouched, and `updated_at`
is set to the current time even when neither field is supplied; the store's
entry for that id is replaced by the updated record. -/
theorem c9_partial_update (st : Store) (pid : String) (p : Playlist)
    (nameArg descriptionArg : Option String) (now : Nat)
    (hfind : findPl st pid = some p) :
    ∃ p2, update_playlist st pid nameArg descriptionArg now = (some p2, setPl st pid p2) ∧
      p2.name = nameArg.getD p.name ∧
      p2.description = descriptionArg.getD p.description ∧
      p2.updated_at = now ∧
      p2.id = p.id ∧
      p2.created_at = p.created_at ∧
      p2.songs = p.songs ∧
      p2.total_duration = p.total_duration := by
  refine ⟨updatePl p nameArg descriptionArg now, ?_, rfl, rfl, rfl, rfl, rfl, rfl, rfl⟩
  rw [update_playlist, hfind]

/-- Witness for C9: renaming `plEx` without supplying a description. -/
theorem c9_partial_update_witness :
    ∃ p2, update_playlist stEx "p1" (some "newmix") none 9 = (some p2, setPl stEx "p1" p2) ∧
      p2.name = (some "newmix").getD plEx.name ∧
      p2.description = (none : Option String).getD plEx.description ∧
      p2.updated_at = 9 ∧
      p2.id = plEx.id ∧
      p2.created_at = plEx.created_at ∧
      p2.songs = plEx.songs ∧
      p2.total_duration = plEx.total_duration :=
  c9_partial_update stEx "p1" plEx (some "newmix") none 9 (by decide)

/-! ### Claim C10 -/

/-- Claim C10 (amended): playlist creation does not validate the name — for
every call, including one with an empty name, `create` produces a playlist
record carrying exactly the supplied name and description, a fresh id, both
timestamps set to now, an empty song sequence and zero duration, and
appends it to the store. -/
theorem c10_create_always_succeeds (st : Store) (name description pid : String)
    (now : Nat) :
    (create_playlist st name description pid now).1 =
      newPlaylist pid name description now ∧
    (create_playlist st name description pid now).2 =
      st ++ [newPlaylist pid name description now] ∧
    (newPlaylist pid name description now).name = name ∧
    (newPlaylist pid name description now).description = description ∧
    (newPlaylist pid name description now).id = pid ∧
    (newPlaylist pid name description now).created_at = now ∧
    (newPlaylist pid name description now).updated_at = now ∧
    (newPlaylist pid name description now).songs = [] ∧
    (newPlaylist pid name description now).total_duration = 0 :=
  ⟨rfl, rfl, rfl, rfl, rfl, rfl, rfl, rfl, rfl⟩

/-- Counterexample to C10 as stated: creation with the empty name is not
rejected — on an empty store it produces and stores a playlist record whose
name is `""`. -/
theorem c10_create_always_succeeds_cex :
    (create_playlist [] "" "d" "id0" 5).2.length = 1 ∧
    (create_playlist [] "" "d" "id0" 5).1.name = "" := by
  refine ⟨by decide, by decide⟩

/-! ### Claim C5 -/

/-- Claim C5: the duration-parse policy and its effect on the aggregate.
(1) A duration string parses, necessarily to `m*60 + s`, exactly when
`split(":")` yields two components both accepted by `int` (as `m` and `s`);
so three-component forms like `"1:02:03"` and non-numeric forms like
`"Live"`/`"N/A"` are unparseable.  (2) On a non-duplicate add the song is
always appended and `updated_at` bumped (no error is ever raised — the
operation always returns the playlist), with `total_duration` increased by
the parsed value when the string parses and left unchanged otherwise.
(3) On removal of a present song the aggregate is decreased by the removed
song's parsed value (with the documented clamp at zero) when it parses, and
left unchanged otherwise.  (4) `"3:45"` parses to 225 seconds. -/
theorem c5_parse_policy :
    (∀ (s : String) (v : Int),
      parseDuration s = some v ↔
        ∃ m sec mv sv, splitColon s.toList = [m, sec] ∧ pyInt m = some mv ∧
          pyInt sec = some sv ∧ v = mv * 60 + sv) ∧
    (∀ (p : Playlist) (song : SongInput) (now : Nat),
      p.songs.any (fun t => t.id == song.id) = false →
      (∀ d, parseDuration song.duration = some d →
        (addSongPl p song now).total_duration = p.total_duration + d) ∧
      (parseDuration song.duration = none →
        (addSongPl p song now).total_duration = p.total_duration) ∧
      (addSongPl p song now).songs = p.songs ++
        [{ id := song.id, title := song.title, channel := song.channel,
           duration := song.duration, thumbnail := song.thumbnail,
           url := song.url, added_at := now }] ∧
      (addSongPl p song now).updated_at = now) ∧
    (∀ (p : Playlist) (sid : String) (now : Nat) (r : Song) (rest : List Song),
      removeFirst sid p.songs = some (r, rest) →
      (∀ d, parseDuration r.duration = some d →
        (removeSongPl p sid now).total_duration = max 0 (p.total_duration - d)) ∧
      (parseDuration r.duration = none →
        (removeSongPl p sid now).total_duration = p.total_duration)) ∧
    (parseDuration "3:45" = some 225 ∧ parseDuration "1:02:03" = none ∧
      parseDuration "Live" = none ∧ parseDuration "N/A" = none) := by
  refine ⟨?_, ?_, ?_, by decide, by decide, by decide, by decide⟩
  · intro s v
    constructor
    · intro h
      rw [parseDuration] at h
      cases hsp : splitColon s.toList with
      | nil => rw [hsp] at h; simp at h
      | cons m rest =>
        cases rest with
        | nil => rw [hsp] at h; simp at h
        | cons sec rest2 =>
          cases rest2 with
          | nil =>
            rw [hsp] at h
            cases hm : pyInt m with
            | none => simp [hm] at h
            | some mv =>
              cases hsec : pyInt sec with
              | none => simp [hm, hsec] at h
              | some sv =>
                simp only [hm, hsec] at h
                injection h with h
                exact ⟨m, sec, mv, sv, rfl, hm, hsec, h.symm⟩
          | cons z zs => rw [hsp] at h; simp at h
    · intro h
      obtain ⟨m, sec, mv, sv, hsp, hm, hsec, hv⟩ := h
      rw [parseDuration, hsp]
      simp only [hm, hsec]
      rw [hv]
  · intro p song now hany
    have hred : addSongPl p song now =
        { p with
          songs := p.songs ++
            [{ id := song.id, title := song.title, channel := song.channel,
               duration := song.duration, thumbnail := song.thumbnail,
               url := song.url, added_at := now }],
          updated_at := now,
          total_duration :=
            match parseDuration song.duration with
            | some d => p.total_duration + d
            | none => p.total_duration } := by
      unfold addSongPl
      rw [hany]
      simp
    refine ⟨?_, ?_, by rw [hred], by rw [hred]⟩
    · intro d hd
      rw [hred]
      simp [hd]
    · intro hd
      rw [hred]
      simp [hd]
  · intro p sid now r rest hrem
    have hred : removeSongPl p sid now =
        { p with
          songs := rest,
          updated_at := now,
          total_duration :=
            match parseDuration r.duration with
            | some d => max 0 (p.total_duration - d)
            | none => p.total_duration } := by
      unfold removeSongPl
      rw [hrem]
    refine ⟨?_, ?_⟩
    · intro d hd
      rw [hred]
      simp [hd]
    · intro hd
      rw [hred]
      simp [hd]

/-- Witness for C5: adding the 60-second song `"1:00"` to a fresh playlist
raises the aggregate from 0 to 60. -/
theorem c5_parse_policy_witness :
    (addSongPl (newPlaylist "p" "mix" "" 0) songMin 1).total_duration =
      (newPlaylist "p" "mix" "" 0).total_duration + 60 :=
  ((c5_parse_policy.2.1 (newPlaylist "p" "mix" "" 0) songMin 1 (by decide)).1)
    60 (by decide)

/-! ### Claim C6 -/

theorem foldl_pick_mem (k : MediaFormat → Int) :
    ∀ (xs : List MediaFormat) (x : MediaFormat),
      List.foldl (fun best y => if k best < k y then y else best) x xs ∈ x :: xs := by
  intro xs
  induction xs with
  | nil => intro x; simp
  | cons y ys ih =>
    intro x
    rw [List.foldl_cons]
    have h := ih (if k x < k y then y else x)
    rcases List.mem_cons.mp h with h1 | h2
    · rw [h1]
      by_cases hk : k x < k y
      · simp [hk]
      · simp [hk]
    · simp [h2]

theorem foldl_pick_ge (k : MediaFormat → Int) :
    ∀ (xs : List MediaFormat) (x a : MediaFormat), a ∈ x :: xs →
      k a ≤ k (List.foldl (fun best y => if k best < k y then y else best) x xs) := by
  intro xs
  induction xs with
  | nil =>
    intro x a ha
    rcases List.mem_singleton.mp ha with rfl
    simp
  | cons y ys ih =>
    intro x a ha
    rw [List.foldl_cons]
    have hx : k x ≤ k (if k x < k y then y else x) := by
      by_cases hk : k x < k y
      · rw [if_pos hk]; omega
      · rw [if_neg hk]
    have hy : k y ≤ k (if k x < k y then y else x) := by
      by_cases hk : k x < k y
      · rw [if_pos hk]
      · rw [if_neg hk]; omega
    rcases List.mem_cons.mp ha with rfl | ha2
    · exact le_trans hx (ih _ _ (by simp))
    · rcases List.mem_cons.mp ha2 with rfl | ha3
      · exact le_trans hy (ih _ _ (by simp))
      · exact ih _ a (by simp [ha3])

theorem maxByFirst_mem (k : MediaFormat → Int) (l : List MediaFormat)
    (b : MediaFormat) (h : maxByFirst k l = some b) : b ∈ l := by
  cases l with
  | nil => simp [maxByFirst] at h
  | cons x xs =>
    rw [maxByFirst] at h
    injection h with h
    rw [← h]
    exact foldl_pick_mem k xs x

theorem maxByFirst_ge (k : MediaFormat → Int) (l : List MediaFormat)
    (b : MediaFormat) (h : maxByFirst k l = some b) :
    ∀ a ∈ l, k a ≤ k b := by
  cases l with
  | nil => simp [maxByFirst] at h
  | cons x xs =>
    rw [maxByFirst] at h
    injection h with h
    intro a ha
    rw [← h]
    exact foldl_pick_ge k xs x a ha

/-- Claim C6: the audio-URL selection policy of `get_audio_stream_url`.
(1) When the response carries a nonempty direct `url` field, that url is
returned.  (2) Otherwise, when the `formats` list has entries whose
`acodec` is not declared "none" and whose `vcodec` is "none" (the code's
reading of "audio codec present and no video codec"), the chosen entry is
a member of that pool attaining the maximal bitrate key — declared average
bitrate `abr` first, falling back to total bitrate `tbr`, defaulting to 0
when neither is present/nonzero — and its nonempty url is returned; on the
spec's example formats `[opus/none/128, opus/none/160, aac/h264]` the
selection is exactly the 160-abr entry's url.  (3) When that pool is empty,
the first format in source order having an audio codec and a truthy url
supplies the url.  (4) Whenever the computed candidate url is absent or
empty, the call fails with the "No audio stream found" error. -/
theorem c6_audio_selection (videoId : String) (info : MediaInfo) :
    (∀ u, info.url = some u → u ≠ "" →
      get_audio_stream_url videoId info = Except.ok
        { title := info.title.getD "Unknown", duration := info.duration.getD 0,
          audio_url := u, video_id := videoId }) ∧
    (∀ fmts, info.url = none → info.formats = some fmts →
      (∀ best, maxByFirst fmtKey (fmts.filter isAudioOnly) = some best →
        best ∈ fmts.filter isAudioOnly ∧
        (∀ g ∈ fmts.filter isAudioOnly, fmtKey g ≤ fmtKey best) ∧
        (∀ u, best.url = some u → u ≠ "" →
          get_audio_stream_url videoId info = Except.ok
            { title := info.title.getD "Unknown",
              duration := info.duration.getD 0,
              audio_url := u, video_id := videoId })) ∧
      (fmts.filter isAudioOnly = [] →
        ∀ f, fmts.find? (fun g => g.acodec != some "none" && strTruthy g.url) = some f →
        ∃ u, f.url = some u ∧ u ≠ "" ∧
          get_audio_stream_url videoId info = Except.ok
            { title := info.title.getD "Unknown",
              duration := info.duration.getD 0,
              audio_url := u, video_id := videoId })) ∧
    ((computeAudioUrl info = none ∨ computeAudioUrl info = some "") →
      get_audio_stream_url videoId info =
        Except.error "Error getting audio stream: No audio stream found") ∧
    get_audio_stream_url "vid" exInfo = Except.ok
      { title := "Unknown", duration := 0, audio_url := "u160",
        video_id := "vid" } := by
  refine ⟨?_, ?_, ?_, rfl⟩
  · intro u hu hne
    rw [get_audio_stream_url]
    have hc : computeAudioUrl info = some u := by rw [computeAudioUrl, hu]
    rw [hc]
    simp [hne]
  · intro fmts hu hf
    constructor
    · intro best hbest
      refine ⟨maxByFirst_mem _ _ _ hbest, maxByFirst_ge _ _ _ hbest, ?_⟩
      intro u hbu hne
      have hc : computeAudioUrl info = some u := by
        rw [computeAudioUrl, hu, hf]
        simp only [hbest]
        exact hbu
      rw [get_audio_stream_url, hc]
      simp [hne]
    · intro hempty f hfind
      have hmax : maxByFirst fmtKey (fmts.filter isAudioOnly) = none := by
        rw [hempty]; rfl
      have htruthy : strTruthy f.url = true := by
        have hpred := List.find?_some hfind
        simp only [Bool.and_eq_true] at hpred
        exact hpred.2
      cases hfu : f.url with
      | none => rw [hfu] at htruthy; simp [strTruthy] at htruthy
      | some u =>
        have hne : u ≠ "" := by
          rw [hfu] at htruthy
          simpa [strTruthy] using htruthy
        refine ⟨u, rfl, hne, ?_⟩
        have hc : computeAudioUrl info = some u := by
          rw [computeAudioUrl, hu, hf]
          simp only [hmax, hfind]
          exact hfu
        rw [get_audio_stream_url, hc]
        simp [hne]
  · intro h
    rcases h with h | h
    · rw [get_audio_stream_url, h]
    · rw [get_audio_stream_url, h]
      simp

/-- Witness for C6: a response with the direct url `"udirect"` resolves to
exactly that url. -/
theorem c6_audio_selection_witness :
    get_audio_stream_url "v" directInfo = Except.ok
      { title := "t", duration := 9, audio_url := "udirect", video_id := "v" } :=
  (c6_audio_selection "v" directInfo).1 "udirect" rfl (by decide)

/-! ### Claim C7 -/

unseal List.mergeSort List.merge in
/-- Claim C7: `recent(limit)` returns all playlists sorted by `updated_at`
descending, truncated to the first `limit` entries: the returned list is
the `limit`-prefix of a permutation of the store that is pairwise sorted in
descending `updated_at` order.  In particular, on three playlists updated
at times 1 < 2 < 3, `recent(2)` returns them in order [t3, t2]. -/
theorem c7_recent :
    (∀ (st : Store) (limit : Nat),
      ∃ l, List.Perm st l ∧
        l.Pairwise (fun a b => b.updated_at ≤ a.updated_at) ∧
        get_recent_playlists st limit = l.take limit) ∧
    get_recent_playlists [pl1, pl2, pl3] 2 = [pl3, pl2] := by
  constructor
  · intro st limit
    refine ⟨st.mergeSort (fun a b => decide (b.updated_at ≤ a.updated_at)),
      (List.mergeSort_perm st _).symm, ?_, rfl⟩
    refine List.Pairwise.imp (fun h => of_decide_eq_true h)
      (List.sorted_mergeSort ?_ ?_ st)
    · intro a b c h1 h2
      exact decide_eq_true
        (le_trans (of_decide_eq_true h2) (of_decide_eq_true h1))
    · intro a b
      rcases Nat.le_total b.updated_at a.updated_at with h | h <;> simp [h]
  · decide

/-! ### Claim C8 -/

/-- Claim C8 (amended): the view-count formatting of search results.  A
numeric count ≥ 1,000,000 yields `"X.YM views"` with one decimal digit; a
numeric count in [1,000, 1,000,000) yields `"X.YK views"`; any other
NONZERO numeric count yields the integer form `"N views"`; and a zero,
absent or non-numeric count yields `"N/A"`.  The zero case is the
correction forced by `c8_views_cex`: the code's truthiness guard
`if view_count and isinstance(...)` sends a count of 0 to "N/A", not
"0 views". -/
theorem c8_views_format :
    (∀ v : Int, 1000000 ≤ v →
      ∃ a b : Nat, b < 10 ∧
        formatViews (some v) = toString a ++ "." ++ toString b ++ "M views") ∧
    (∀ v : Int, 1000 ≤ v → v < 1000000 →
      ∃ a b : Nat, b < 10 ∧
        formatViews (some v) = toString a ++ "." ++ toString b ++ "K views") ∧
    (∀ v : Int, v ≠ 0 → v < 1000 → formatViews (some v) = toString v ++ " views") ∧
    formatViews (some 0) = "N/A" ∧ formatViews none = "N/A" := by
  refine ⟨?_, ?_, ?_, rfl, rfl⟩
  · intro v hv
    refine ⟨roundHalfEven (10 * v.toNat) 1000000 / 10,
      roundHalfEven (10 * v.toNat) 1000000 % 10, Nat.mod_lt _ (by omega), ?_⟩
    rw [formatViews, if_neg (by omega), if_pos hv]
    rfl
  · intro v hv hv2
    refine ⟨roundHalfEven (10 * v.toNat) 1000 / 10,
      roundHalfEven (10 * v.toNat) 1000 % 10, Nat.mod_lt _ (by omega), ?_⟩
    rw [formatViews, if_neg (by omega), if_neg (by omega), if_pos hv]
    rfl
  · intro v hv hv2
    rw [formatViews, if_neg hv, if_neg (by omega), if_neg (by omega)]

/-- Witness for C8: concrete renderings in each numeric band. -/
theorem c8_views_format_witness :
    (∃ a b : Nat, b < 10 ∧
      formatViews (some 2500000) = toString a ++ "." ++ toString b ++ "M views") ∧
    (∃ a b : Nat, b < 10 ∧
      formatViews (some 1150) = toString a ++ "." ++ toString b ++ "K views") ∧
    formatViews (some 999) = toString (999 : Int) ++ " views" :=
  ⟨c8_views_format.1 2500000 (by decide),
   c8_views_format.2.1 1150 (by decide) (by decide),
   c8_views_format.2.2.1 999 (by decide) (by decide)⟩

/-- Counterexample to C8 as stated: a view count of 0 is numeric, so the
claim requires the integer form `"0 views"`, but the code renders "N/A". -/
theorem c8_views_format_cex :
    formatViews (some 0) = "N/A" ∧ formatViews (some 0) ≠ "0 views" := by
  refine ⟨rfl, by decide⟩

end SpotifyStream
